import Mathlib

/-!
Verification development for the Discord-bot repository (cogs modules).

Each section shallowly embeds one module's data model and handler logic as
executable Lean definitions, translated from the Python source:

* `NumberRelay` embeds `cogs/number.py` (cross-guild number-relay game):
  the game state, the webhook broadcast loop, and the `on_message` handler
  as a pure state transformer that also emits an ordered effect trace
  (lock acquire/release, file load/save, message delete, channel sends,
  webhook sends).
* `CrossChat` embeds `cogs/chat.py` (cross-guild message bridge).
* `GlobalMod` embeds `cogs/bot_global_moderation.py`: the lazily-expiring
  global ban/mute stores with the global app-command check, and the
  per-guild announcement-channel resolution used by `_broadcast_embed`.
* `GameHub` embeds the 2048 game logic of `cogs/game_hub.py`.
* `Locks` records the inventory of mutual-exclusion primitives created in
  the source tree.

Machine integers do not arise: Python integers are unbounded, so they are
modelled as `Int` (or `Nat` for Discord snowflake ids). Fallible paths are
modelled with `Option`. Randomness (`spawn_tile`) and wall-clock timestamps
are not needed by any claim; timestamps that are compared are modelled as
`Int` (ISO-8601 strings compare like their parsed datetimes).
-/

namespace NumberRelay

/-- Game state persisted in `number_relay_state.json` (see `load_game_state`
/ `save_game_state` in `cogs/number.py`): the next expected number and the
id of the author of the last accepted message (`None` after a reset). -/
structure RelayState where
  current_number : Int
  last_user_id : Option Nat
deriving DecidableEq

/-- Status argument of `broadcast_relay_status` in `cogs/number.py`. -/
inductive RStatus
  | success
  | errorReset
  | manualReset
deriving DecidableEq

/-- Kinds of plain `channel.send` performed by the handler: the
"you cannot send twice in a row" warning and the failure announcement. -/
inductive SendKind
  | repeatWarning
  | failureAnnounce
deriving DecidableEq

/-- Observable effects of one `on_message` invocation, in program order.
`sentWebhook` records one webhook delivery attempt; its `ok` flag is the
outcome of the `await webhook.send(...)` (a raised exception is caught and
only logged, which the flag records as `false`). -/
inductive REffect
  | lockAcquire
  | lockRelease
  | loadedState (s : RelayState)
  | savedState (s : RelayState)
  | deletedMessage
  | sentChannel (kind : SendKind)
  | sentWebhook (target : Nat) (status : RStatus) (next : Int) (ok : Bool)
deriving DecidableEq

/-- An incoming Discord message as seen by `NumberRelay.on_message`.
`parsed_content` is the result of `int(message.content.strip())`:
`none` models the `ValueError` branch. -/
structure RMessage where
  author_bot : Bool
  is_interaction : Bool
  is_default_type : Bool
  channel_id : Nat
  author_id : Nat
  parsed_content : Option Int
deriving DecidableEq

/-- `NumberRelay.broadcast_relay_status`: iterate over the configured
webhooks (`relay_webhooks : {channel_id: webhook_url}`), skipping the
source channel unless the status is `MANUAL_RESET`, and attempt one
delivery per remaining endpoint; a failed delivery is caught and logged,
so it never stops the loop. `fails` says which endpoints' deliveries
raise. -/
def broadcastRelayStatus (hooks : List (Nat × String)) (sourceChannel : Nat)
    (status : RStatus) (next : Int) (fails : Nat → Bool) : List REffect :=
  (hooks.filter
      (fun p => decide (¬(p.1 = sourceChannel ∧ status ≠ RStatus.manualReset)))).map
    (fun p => REffect.sentWebhook p.1 status next (!fails p.1))

/-- `NumberRelay.on_message` (`cogs/number.py` lines 242–327) as a pure
transformer: given the webhook config, the state stored in the state file,
the message and the per-endpoint delivery outcomes, return the state file's
content after the handler and the ordered effect trace.

The handler filters bot/interaction/non-default messages, ignores channels
that are not in the config, ignores non-integer content, then inside the
`game_state_lock` reloads the state and either (A) rejects a repeated
author without touching the state, (B) on the expected number increments
and stores the state then broadcasts SUCCESS after releasing the lock, or
(C) on a wrong number deletes the message, resets the state to 1/None,
stores it, and after releasing the lock announces the failure in the
source channel and broadcasts ERROR_RESET. -/
def onMessage (hooks : List (Nat × String)) (fileState : RelayState)
    (msg : RMessage) (fails : Nat → Bool) : RelayState × List REffect :=
  if msg.author_bot || msg.is_interaction || !msg.is_default_type then
    (fileState, [])
  else if (hooks.lookup msg.channel_id).isNone then
    (fileState, [])
  else
    match msg.parsed_content with
    | none => (fileState, [])
    | some n =>
      if fileState.last_user_id = some msg.author_id then
        (fileState,
          [REffect.lockAcquire, REffect.loadedState fileState,
           REffect.deletedMessage, REffect.sentChannel SendKind.repeatWarning,
           REffect.lockRelease])
      else if n = fileState.current_number then
        let s' : RelayState :=
          ⟨fileState.current_number + 1, some msg.author_id⟩
        (s',
          [REffect.lockAcquire, REffect.loadedState fileState,
           REffect.savedState s', REffect.lockRelease]
            ++ broadcastRelayStatus hooks msg.channel_id RStatus.success
                s'.current_number fails)
      else
        let s' : RelayState := ⟨1, none⟩
        (s',
          [REffect.lockAcquire, REffect.loadedState fileState,
           REffect.deletedMessage, REffect.savedState s', REffect.lockRelease,
           REffect.sentChannel SendKind.failureAnnounce]
            ++ broadcastRelayStatus hooks msg.channel_id RStatus.errorReset 1
                fails)

/-- Effects that deliver text to users (plain channel sends and webhook
broadcast deliveries). -/
def isSendEff : REffect → Bool
  | REffect.sentChannel _ => true
  | REffect.sentWebhook _ _ _ _ => true
  | _ => false

/-- Effects that persist the game state to the state file. -/
def isSaveEff : REffect → Bool
  | REffect.savedState _ => true
  | _ => false

end NumberRelay

namespace NumberRelay

/-- C1. For every message in a configured relay channel whose content
parses as an integer `n`, if `n` equals the stored `current_number` and the
author's id differs from the stored `last_user_id`, the handler sets
`current_number` to `n + 1` and `last_user_id` to the author's id,
persists this state inside the lock-guarded critical section (the trace is
exactly acquire, load, save, release), and then broadcasts a SUCCESS
status over the configured webhooks (one delivery attempt per configured
endpoint other than the source channel). -/
theorem claim_C1_success_persists_and_broadcasts
    (hooks : List (Nat × String)) (fileState : RelayState) (msg : RMessage)
    (fails : Nat → Bool) (n : Int)
    (hbot : msg.author_bot = false) (hint : msg.is_interaction = false)
    (hdef : msg.is_default_type = true)
    (hreg : (hooks.lookup msg.channel_id).isSome)
    (hparse : msg.parsed_content = some n)
    (hnum : n = fileState.current_number)
    (hauthor : fileState.last_user_id ≠ some msg.author_id) :
    onMessage hooks fileState msg fails =
      (⟨n + 1, some msg.author_id⟩,
        [REffect.lockAcquire, REffect.loadedState fileState,
         REffect.savedState ⟨n + 1, some msg.author_id⟩, REffect.lockRelease]
          ++ broadcastRelayStatus hooks msg.channel_id RStatus.success (n + 1)
              fails)
    ∧ ∀ tid url, (tid, url) ∈ hooks → tid ≠ msg.channel_id →
        REffect.sentWebhook tid RStatus.success (n + 1) (!fails tid)
          ∈ (onMessage hooks fileState msg fails).2 := by
  have hni : (hooks.lookup msg.channel_id).isNone = false := by
    cases h : hooks.lookup msg.channel_id with
    | none => rw [h] at hreg; simp at hreg
    | some v => simp [Option.isNone]
  have hmain : onMessage hooks fileState msg fails =
      (⟨n + 1, some msg.author_id⟩,
        [REffect.lockAcquire, REffect.loadedState fileState,
         REffect.savedState ⟨n + 1, some msg.author_id⟩, REffect.lockRelease]
          ++ broadcastRelayStatus hooks msg.channel_id RStatus.success (n + 1)
              fails) := by
    have hauthor' : some msg.author_id ≠ fileState.last_user_id := Ne.symm hauthor
    simp [onMessage, hbot, hint, hdef, hni, hparse, hnum, hauthor, hauthor']
  refine ⟨hmain, ?_⟩
  intro tid url hmem hne
  rw [hmain]
  simp only [List.mem_append]
  right
  simp only [broadcastRelayStatus, List.mem_map]
  refine ⟨(tid, url), ?_, rfl⟩
  simp [List.mem_filter, hmem, hne]

/-- Witness for C1 at a concrete configuration: two webhooks, expected
number 5 submitted by user 9 while the previous accepted author was 7. -/
theorem claim_C1_witness :
    onMessage [(1, "url-a"), (2, "url-b")] ⟨5, some 7⟩
        ⟨false, false, true, 1, 9, some 5⟩ (fun _ => false) =
      (⟨6, some 9⟩,
        [REffect.lockAcquire, REffect.loadedState ⟨5, some 7⟩,
         REffect.savedState ⟨6, some 9⟩, REffect.lockRelease]
          ++ broadcastRelayStatus [(1, "url-a"), (2, "url-b")] 1
              RStatus.success 6 (fun _ => false)) :=
  (claim_C1_success_persists_and_broadcasts
      [(1, "url-a"), (2, "url-b")] ⟨5, some 7⟩ ⟨false, false, true, 1, 9, some 5⟩
      (fun _ => false) 5 rfl rfl rfl (by decide) rfl rfl (by decide)).1

/-- C2. For every message in a configured relay channel whose content
parses as an integer `n`, if `n` differs from the stored `current_number`
and the author differs from the stored `last_user_id`, the handler resets
the state to `current_number = 1`, `last_user_id = None`, and the save of
the mutated state occurs before any channel send or webhook broadcast of
the failure (every effect preceding the save in the trace is a non-send
effect). -/
theorem claim_C2_failure_resets_and_persists_before_sends
    (hooks : List (Nat × String)) (fileState : RelayState) (msg : RMessage)
    (fails : Nat → Bool) (n : Int)
    (hbot : msg.author_bot = false) (hint : msg.is_interaction = false)
    (hdef : msg.is_default_type = true)
    (hreg : (hooks.lookup msg.channel_id).isSome)
    (hparse : msg.parsed_content = some n)
    (hnum : n ≠ fileState.current_number)
    (hauthor : fileState.last_user_id ≠ some msg.author_id) :
    onMessage hooks fileState msg fails =
      (⟨1, none⟩,
        [REffect.lockAcquire, REffect.loadedState fileState,
         REffect.deletedMessage, REffect.savedState ⟨1, none⟩,
         REffect.lockRelease, REffect.sentChannel SendKind.failureAnnounce]
          ++ broadcastRelayStatus hooks msg.channel_id RStatus.errorReset 1
              fails)
    ∧ ((onMessage hooks fileState msg fails).2.takeWhile
          (fun e => !isSaveEff e)).all (fun e => !isSendEff e) = true := by
  have hni : (hooks.lookup msg.channel_id).isNone = false := by
    cases h : hooks.lookup msg.channel_id with
    | none => rw [h] at hreg; simp at hreg
    | some v => simp [Option.isNone]
  have hmain : onMessage hooks fileState msg fails =
      (⟨1, none⟩,
        [REffect.lockAcquire, REffect.loadedState fileState,
         REffect.deletedMessage, REffect.savedState ⟨1, none⟩,
         REffect.lockRelease, REffect.sentChannel SendKind.failureAnnounce]
          ++ broadcastRelayStatus hooks msg.channel_id RStatus.errorReset 1
              fails) := by
    have hauthor' : some msg.author_id ≠ fileState.last_user_id := Ne.symm hauthor
    simp [onMessage, hbot, hint, hdef, hni, hparse, hnum, hauthor, hauthor']
  refine ⟨hmain, ?_⟩
  rw [hmain]
  simp [List.takeWhile, isSaveEff, isSendEff]

/-- Witness for C2: wrong number 8 submitted when 5 was expected. -/
theorem claim_C2_witness :
    onMessage [(1, "url-a"), (2, "url-b")] ⟨5, some 7⟩
        ⟨false, false, true, 1, 9, some 8⟩ (fun _ => false) =
      (⟨1, none⟩,
        [REffect.lockAcquire, REffect.loadedState ⟨5, some 7⟩,
         REffect.deletedMessage, REffect.savedState ⟨1, none⟩,
         REffect.lockRelease, REffect.sentChannel SendKind.failureAnnounce]
          ++ broadcastRelayStatus [(1, "url-a"), (2, "url-b")] 1
              RStatus.errorReset 1 (fun _ => false)) :=
  (claim_C2_failure_resets_and_persists_before_sends
      [(1, "url-a"), (2, "url-b")] ⟨5, some 7⟩ ⟨false, false, true, 1, 9, some 8⟩
      (fun _ => false) 8 rfl rfl rfl (by decide) rfl (by decide) (by decide)).1

/-- C4. For every message in a relay channel whose author equals the
stored `last_user_id`, the handler leaves the persisted game state
unchanged regardless of the submitted number: the resulting file state is
the loaded state, the trace is exactly the in-lock delete/warning, and no
save effect occurs. -/
theorem claim_C4_repeat_author_state_unchanged
    (hooks : List (Nat × String)) (fileState : RelayState) (msg : RMessage)
    (fails : Nat → Bool) (n : Int)
    (hbot : msg.author_bot = false) (hint : msg.is_interaction = false)
    (hdef : msg.is_default_type = true)
    (hreg : (hooks.lookup msg.channel_id).isSome)
    (hparse : msg.parsed_content = some n)
    (hauthor : fileState.last_user_id = some msg.author_id) :
    (onMessage hooks fileState msg fails).1 = fileState
    ∧ onMessage hooks fileState msg fails =
        (fileState,
          [REffect.lockAcquire, REffect.loadedState fileState,
           REffect.deletedMessage, REffect.sentChannel SendKind.repeatWarning,
           REffect.lockRelease])
    ∧ (onMessage hooks fileState msg fails).2.all (fun e => !isSaveEff e)
        = true := by
  have hni : (hooks.lookup msg.channel_id).isNone = false := by
    cases h : hooks.lookup msg.channel_id with
    | none => rw [h] at hreg; simp at hreg
    | some v => simp [Option.isNone]
  have hmain : onMessage hooks fileState msg fails =
      (fileState,
        [REffect.lockAcquire, REffect.loadedState fileState,
         REffect.deletedMessage, REffect.sentChannel SendKind.repeatWarning,
         REffect.lockRelease]) := by
    simp [onMessage, hbot, hint, hdef, hni, hparse, hauthor]
  refine ⟨by rw [hmain], hmain, ?_⟩
  rw [hmain]
  simp [isSaveEff]

/-- Witness for C4: the previous author 7 submits the correct number 5;
the state file is untouched. -/
theorem claim_C4_witness :
    (onMessage [(1, "url-a"), (2, "url-b")] ⟨5, some 7⟩
        ⟨false, false, true, 1, 7, some 5⟩ (fun _ => false)).1 = ⟨5, some 7⟩ :=
  (claim_C4_repeat_author_state_unchanged
      [(1, "url-a"), (2, "url-b")] ⟨5, some 7⟩ ⟨false, false, true, 1, 7, some 5⟩
      (fun _ => false) 5 rfl rfl rfl (by decide) rfl rfl).1

/-- C3 counterexample. In a two-endpoint configuration, a SUCCESS
broadcast from source channel 1 delivers nothing to channel 1's own
webhook (the loop skips the source channel for any status other than
MANUAL_RESET), refuting "every webhook endpoint in the relay configuration
receives the status embed at least once". -/
theorem claim_C3_counterexample :
    ((1 : Nat), "url-a") ∈ [((1 : Nat), "url-a"), (2, "url-b")]
    ∧ (broadcastRelayStatus [(1, "url-a"), (2, "url-b")] 1 RStatus.success 6
          (fun _ => false)).filter
        (fun e => match e with
          | REffect.sentWebhook t _ _ _ => t == 1
          | _ => false) = []
    ∧ broadcastRelayStatus [(1, "url-a"), (2, "url-b")] 1 RStatus.success 6
        (fun _ => false) = [REffect.sentWebhook 2 RStatus.success 6 true] := by
  refine ⟨by decide, ?_, ?_⟩ <;> rfl

/-- C3 as amended. Every webhook endpoint in the relay configuration other
than the source channel's (the source is included only for MANUAL_RESET
broadcasts) receives exactly one delivery attempt per broadcast, and a
delivery failure at one endpoint is caught inside the loop and does not
prevent the attempts at the remaining endpoints: the attempt list does not
depend on which endpoints fail, only each attempt's own outcome flag
does. -/
theorem claim_C3_amended_broadcast_skips_source_only
    (hooks : List (Nat × String)) (sourceChannel : Nat) (status : RStatus)
    (next : Int) (fails : Nat → Bool) (tid : Nat) (url : String)
    (hmem : (tid, url) ∈ hooks)
    (helig : tid ≠ sourceChannel ∨ status = RStatus.manualReset) :
    REffect.sentWebhook tid status next (!fails tid)
      ∈ broadcastRelayStatus hooks sourceChannel status next fails
    ∧ ∀ fails' : Nat → Bool,
        (broadcastRelayStatus hooks sourceChannel status next fails).length =
          (broadcastRelayStatus hooks sourceChannel status next fails').length := by
  constructor
  · simp only [broadcastRelayStatus, List.mem_map]
    refine ⟨(tid, url), ?_, rfl⟩
    rcases helig with h | h
    · simp [List.mem_filter, hmem, h]
    · simp [List.mem_filter, hmem, h]
  · intro fails'
    simp [broadcastRelayStatus]

/-- Witness for the amended C3: endpoint 2 still gets its attempt even
when endpoint 1's delivery raises. -/
theorem claim_C3_amended_witness :
    REffect.sentWebhook 2 RStatus.success 6 true
      ∈ broadcastRelayStatus [(1, "url-a"), (2, "url-b")] 1 RStatus.success 6
          (fun t => t == 1) :=
  (claim_C3_amended_broadcast_skips_source_only
      [(1, "url-a"), (2, "url-b")] 1 RStatus.success 6 (fun t => t == 1)
      2 "url-b" (by decide) (Or.inl (by decide))).1

end NumberRelay

namespace CrossChat

/-- An incoming Discord message as seen by `CrossChatBridge.on_message`
(`cogs/chat.py`). `attachments` are the attachment URLs; `has_reply_embed`
abstracts whether the reply-preview handling (`message.reference` present)
produced an embed to forward. -/
structure BMessage where
  author_bot : Bool
  is_interaction : Bool
  is_default_type : Bool
  channel_id : Nat
  content : String
  attachments : List String
  has_reply_embed : Bool
deriving DecidableEq

/-- One webhook forward performed by the bridge loop. -/
inductive BEffect
  | forwarded (target : Nat) (content : String) (withEmbed : Bool)
deriving DecidableEq

/-- The forwarded text: the message content with the attachment URLs
appended (`content = (content or "") + "\n" + "\n".join(urls)` when the
message has attachments). -/
def forwardContent (msg : BMessage) : String :=
  if msg.attachments.isEmpty then msg.content
  else msg.content ++ "\x0a" ++ String.intercalate "\x0a" msg.attachments

/-- `CrossChatBridge.on_message` (`cogs/chat.py` lines 112–215): filter
bot/interaction/non-default messages, require the source channel to be in
the bridge config, drop messages whose forwarded content is empty with no
reply embed, drop everything when at most one channel is registered, then
forward to every registered webhook except the source channel's (each
target's send failure is caught inside the loop). -/
def onMessage (hooks : List (Nat × String)) (msg : BMessage) : List BEffect :=
  if msg.author_bot || msg.is_interaction || !msg.is_default_type then []
  else if (hooks.lookup msg.channel_id).isNone then []
  else
    let content := forwardContent msg
    if content = "" ∧ msg.has_reply_embed = false then []
    else if hooks.length ≤ 1 then []
    else
      (hooks.filter (fun p => decide (p.1 ≠ msg.channel_id))).map
        (fun p => BEffect.forwarded p.1 content msg.has_reply_embed)

/-- C7 counterexample. A non-bot, non-interaction, default-type message
with empty content, no attachments and no reply, posted in registered
channel 1 of a two-channel bridge, is forwarded to no webhook at all
(the handler returns at the emptiness check), refuting "forwards the
message content to the webhook of every registered channel except the
source". -/
theorem claim_C7_counterexample :
    onMessage [(1, "url-a"), (2, "url-b")]
        ⟨false, false, true, 1, "", [], false⟩ = []
    ∧ ([((1 : Nat), "url-a"), (2, "url-b")].lookup 1).isSome = true
    ∧ [((1 : Nat), "url-a"), (2, "url-b")].length = 2 := by
  refine ⟨rfl, by decide, by decide⟩

/-- C7 as amended. For every non-bot, non-interaction, default-type
message posted in a channel registered in the bridge configuration, when
at least two channels are registered and the message yields nonempty
forward content (text or attachment URLs) or a reply-preview embed, the
bridge forwards the content (with attachment URLs appended) to the webhook
of every registered channel except the source channel, and never forwards
to the source channel's own webhook. -/
theorem claim_C7_amended_bridge_forwards_except_source
    (hooks : List (Nat × String)) (msg : BMessage)
    (hbot : msg.author_bot = false) (hint : msg.is_interaction = false)
    (hdef : msg.is_default_type = true)
    (hreg : (hooks.lookup msg.channel_id).isSome)
    (hlen : 2 ≤ hooks.length)
    (hcontent : forwardContent msg ≠ "" ∨ msg.has_reply_embed = true) :
    (∀ tid url, (tid, url) ∈ hooks → tid ≠ msg.channel_id →
        BEffect.forwarded tid (forwardContent msg) msg.has_reply_embed
          ∈ onMessage hooks msg)
    ∧ (∀ tid c w, BEffect.forwarded tid c w ∈ onMessage hooks msg →
        tid ≠ msg.channel_id) := by
  have hni : (hooks.lookup msg.channel_id).isNone = false := by
    cases h : hooks.lookup msg.channel_id with
    | none => rw [h] at hreg; simp at hreg
    | some v => simp [Option.isNone]
  have hne : ¬(forwardContent msg = "" ∧ msg.has_reply_embed = false) := by
    rcases hcontent with h | h
    · exact fun hc => h hc.1
    · exact fun hc => by rw [h] at hc; exact absurd hc.2 (by simp)
  have hlen' : ¬hooks.length ≤ 1 := by omega
  have hmain : onMessage hooks msg =
      (hooks.filter (fun p => decide (p.1 ≠ msg.channel_id))).map
        (fun p => BEffect.forwarded p.1 (forwardContent msg)
          msg.has_reply_embed) := by
    simp [onMessage, hbot, hint, hdef, hni, hne, hlen']
  constructor
  · intro tid url hmem hnesrc
    rw [hmain]
    simp only [List.mem_map]
    refine ⟨(tid, url), ?_, rfl⟩
    simp [List.mem_filter, hmem, hnesrc]
  · intro tid c w hmemf
    rw [hmain] at hmemf
    simp only [List.mem_map] at hmemf
    obtain ⟨p, hpmem, hpeq⟩ := hmemf
    have hp := (List.mem_filter.mp hpmem).2
    simp only [decide_eq_true_eq] at hp
    cases hpeq
    exact hp

/-- Witness for the amended C7: a one-word message from bridge channel 1
reaches channel 2's webhook and nothing is sent back to channel 1. -/
theorem claim_C7_amended_witness :
    BEffect.forwarded 2 (forwardContent ⟨false, false, true, 1, "hi", [], false⟩)
        false
      ∈ onMessage [(1, "url-a"), (2, "url-b")]
          ⟨false, false, true, 1, "hi", [], false⟩ :=
  (claim_C7_amended_bridge_forwards_except_source
      [(1, "url-a"), (2, "url-b")] ⟨false, false, true, 1, "hi", [], false⟩
      rfl rfl rfl (by decide) (by decide)
      (Or.inl (by decide))).1 2 "url-b" (by decide) (by decide)

end CrossChat

namespace GlobalMod

/-- A global ban/mute record as stored in `data/global_ban.json` /
`data/global_mute.json` (`cogs/bot_global_moderation.py`). `expires` is
the parsed expiry timestamp: `none` models both a missing/empty `expires`
value and an unparsable ISO string (both make `_is_expired` return
False). -/
structure ModRecord where
  moderator : Nat
  moderator_name : String
  reason : String
  ts : String
  expires : Option Int
deriving DecidableEq

/-- `BotGlobalModeration._is_expired`: a record with no (parsable) expiry
never expires; otherwise it is expired once the current time reaches the
expiry timestamp (`datetime.utcnow() >= dt`). -/
def isExpired (now : Int) (rec : ModRecord) : Bool :=
  match rec.expires with
  | none => false
  | some e => decide (now ≥ e)

/-- `BotGlobalModeration._cleanup_expired`: drop every expired record from
the ban and mute stores; the boolean reports whether anything was removed,
in which case `_save_all()` re-persists the stores. -/
def cleanupExpired (now : Int) (bans mutes : List (Nat × ModRecord)) :
    List (Nat × ModRecord) × List (Nat × ModRecord) × Bool :=
  (bans.filter (fun p => !isExpired now p.2),
   mutes.filter (fun p => !isExpired now p.2),
   bans.any (fun p => isExpired now p.2)
     || mutes.any (fun p => isExpired now p.2))

/-- `BotGlobalModeration._global_app_command_check`: run the lazy cleanup,
then block (raise `CheckFailure`) exactly when the invoking user still has
a ban or mute record. Returns the post-cleanup stores, whether they were
re-persisted, and whether the interaction was blocked. -/
def globalCheck (now : Int) (uid : Nat) (bans mutes : List (Nat × ModRecord)) :
    List (Nat × ModRecord) × List (Nat × ModRecord) × Bool × Bool :=
  let r := cleanupExpired now bans mutes
  (r.1, r.2.1, r.2.2,
   (r.1.lookup uid).isSome || (r.2.1.lookup uid).isSome)

/-- Key membership in an association-list store coincides with the
existence of an entry for the key. -/
theorem lookup_isSome_iff (uid : Nat) :
    ∀ l : List (Nat × ModRecord),
      (l.lookup uid).isSome = true ↔ ∃ rec, (uid, rec) ∈ l := by
  intro l
  induction l with
  | nil => simp [List.lookup]
  | cons p t ih =>
    obtain ⟨k, v⟩ := p
    by_cases h : uid = k
    · subst h
      constructor
      · intro _
        exact ⟨v, by simp⟩
      · intro _
        simp [List.lookup]
    · have hk : (uid == k) = false := by simp [h]
      simp only [List.lookup, hk, List.mem_cons]
      rw [ih]
      constructor
      · rintro ⟨rec, hrec⟩
        exact ⟨rec, Or.inr hrec⟩
      · rintro ⟨rec, hrec | hrec⟩
        · injection hrec with h1 h2
          exact absurd h1 h
        · exact ⟨rec, hrec⟩

/-- C5. The global app-command check blocks the user iff they have a ban
or mute record whose expiry is absent or still in the future; every record
expired at or before `now` is removed by the check from both stores (and
only those), the stores are re-persisted exactly when something was
removed, and a record with no expiry never expires. -/
theorem claim_C5_lazy_expiry_check
    (now : Int) (uid : Nat) (bans mutes : List (Nat × ModRecord)) :
    ((globalCheck now uid bans mutes).2.2.2 = true ↔
      ∃ rec : ModRecord, ((uid, rec) ∈ bans ∨ (uid, rec) ∈ mutes) ∧
        (rec.expires = none ∨ ∃ e, rec.expires = some e ∧ now < e))
    ∧ (∀ p : Nat × ModRecord,
        p ∈ (globalCheck now uid bans mutes).1 ↔
          p ∈ bans ∧ isExpired now p.2 = false)
    ∧ (∀ p : Nat × ModRecord,
        p ∈ (globalCheck now uid bans mutes).2.1 ↔
          p ∈ mutes ∧ isExpired now p.2 = false)
    ∧ ((globalCheck now uid bans mutes).2.2.1 = true ↔
        (∃ p ∈ bans, isExpired now p.2 = true)
          ∨ ∃ p ∈ mutes, isExpired now p.2 = true)
    ∧ ∀ rec : ModRecord, rec.expires = none → isExpired now rec = false := by
  have hnotexp : ∀ rec : ModRecord, isExpired now rec = false ↔
      (rec.expires = none ∨ ∃ e, rec.expires = some e ∧ now < e) := by
    intro rec
    cases h : rec.expires with
    | none => simp [isExpired, h]
    | some e =>
      rw [show isExpired now rec = decide (now ≥ e) by simp [isExpired, h]]
      constructor
      · intro hlt
        simp only [decide_eq_false_iff_not] at hlt
        exact Or.inr ⟨e, rfl, by omega⟩
      · rintro (hc | ⟨e', he', hlt⟩)
        · simp at hc
        · injection he' with he2
          subst he2
          simp only [decide_eq_false_iff_not]
          omega
  refine ⟨?_, ?_, ?_, ?_, ?_⟩
  · simp only [globalCheck, cleanupExpired, Bool.or_eq_true,
      lookup_isSome_iff, List.mem_filter, Bool.not_eq_eq_eq_not, Bool.not_true]
    constructor
    · rintro (⟨rec, hmem, hexp⟩ | ⟨rec, hmem, hexp⟩)
      · exact ⟨rec, Or.inl hmem, (hnotexp rec).mp hexp⟩
      · exact ⟨rec, Or.inr hmem, (hnotexp rec).mp hexp⟩
    · rintro ⟨rec, hmem | hmem, hfresh⟩
      · exact Or.inl ⟨rec, hmem, (hnotexp rec).mpr hfresh⟩
      · exact Or.inr ⟨rec, hmem, (hnotexp rec).mpr hfresh⟩
  · intro p
    simp [globalCheck, cleanupExpired, List.mem_filter]
  · intro p
    simp [globalCheck, cleanupExpired, List.mem_filter]
  · simp [globalCheck, cleanupExpired, List.any_eq_true]
  · intro rec h
    simp [isExpired, h]

/-- Witness for C5: at time 100, user 7's ban expired at 50, so the check
removes it and does not block, while user 8's mute (expiry 200) still
blocks. -/
theorem claim_C5_witness :
    (globalCheck 100 7 [(7, ⟨1, "m", "r", "t", some 50⟩)] []).2.2.2 = false
    ∧ (globalCheck 100 8 [] [(8, ⟨1, "m", "r", "t", some 200⟩)]).2.2.2
        = true := by
  constructor
  · have h := (claim_C5_lazy_expiry_check 100 7
      [(7, ⟨1, "m", "r", "t", some 50⟩)] []).1
    by_cases hb : (globalCheck 100 7 [(7, ⟨1, "m", "r", "t", some 50⟩)] []).2.2.2
        = true
    · obtain ⟨rec, hmem, hfresh⟩ := h.mp hb
      rcases hmem with hmem | hmem
      · simp only [List.mem_singleton] at hmem
        cases hmem
        rcases hfresh with hc | ⟨e, he, hlt⟩
        · simp at hc
        · simp only [Option.some.injEq] at he
          omega
      · simp at hmem
    · simpa using hb
  · exact ((claim_C5_lazy_expiry_check 100 8 []
      [(8, ⟨1, "m", "r", "t", some 200⟩)]).1).mpr
      ⟨⟨1, "m", "r", "t", some 200⟩, Or.inr (by simp), Or.inr ⟨200, rfl, by omega⟩⟩

end GlobalMod

namespace GlobalMod

/-- The announcement channel name used by the resolution helper
(`CH_NAME` in `cogs/bot_global_moderation.py`). -/
def CH_NAME : String := "极光BOT-更新"

/-- A guild channel as the resolution helper sees it: id, name, whether it
is a text channel (`isinstance(..., discord.TextChannel)`), and whether
the bot may send there (`permissions_for(me).send_messages`). -/
structure Chan where
  id : Nat
  name : String
  isText : Bool
  canSend : Bool
deriving DecidableEq

/-- A guild as the resolution helper sees it. `hasMember` models whether
`guild.me or await guild.fetch_member(...)` yields the bot member;
`manageChannels` is `me.guild_permissions.manage_channels`. -/
structure Guild where
  gid : Nat
  channels : List Chan
  hasMember : Bool
  manageChannels : Bool
deriving DecidableEq

/-- Outcome of `guild.create_text_channel(CH_NAME, ...)`: success with the
new channel's id and send permission, a `discord.Forbidden`, or another
exception. -/
inductive CreateOutcome
  | ok (newId : Nat) (canSend : Bool)
  | forbidden
  | err
deriving DecidableEq

/-- Per-guild outcome of `_broadcast_embed`: the embed was sent to a
channel, or the guild was recorded in the failures list with a reason. -/
inductive GuildResult
  | sent (chId : Nat)
  | failed (reason : String)
deriving DecidableEq

/-- `guild.get_channel(id)` / `guild.fetch_channel(id)` followed by the
`isinstance(..., discord.TextChannel)` check: the guild's channel with the
given id, provided it is a text channel. -/
def findTextById (g : Guild) (m : Nat) : Option Chan :=
  match g.channels.find? (fun c => c.id == m) with
  | some c => if c.isText then some c else none
  | none => none

/-- The case-insensitive name search
`next((c for c in guild.text_channels if c.name.lower() == CH_NAME.lower()), None)`. -/
def findByName (g : Guild) : Option Chan :=
  (g.channels.filter (fun c => c.isText)).find?
    (fun c => c.name.toLower == CH_NAME.toLower)

/-- Dict key removal (`self._channel_map.pop(gid_str, None)`). -/
def mapErase (m : List (Nat × Nat)) (k : Nat) : List (Nat × Nat) :=
  m.filter (fun p => p.1 != k)

/-- Dict key assignment (`self._channel_map[gid_str] = channel_id`). -/
def mapInsert (m : List (Nat × Nat)) (k v : Nat) : List (Nat × Nat) :=
  (k, v) :: mapErase m k

/-- The final per-guild send of `_broadcast_embed`: re-obtain the bot
member (an unobtainable member surfaces as the caught per-guild
exception), check `send_messages` on the target channel, then attempt the
send, any of which can turn the guild into a recorded failure. -/
def finalSend (g : Guild) (c : Chan) (m : List (Nat × Nat)) (sendOk : Bool) :
    GuildResult × List (Nat × Nat) :=
  if ¬g.hasMember then (GuildResult.failed "member-fetch-exception", m)
  else if ¬c.canSend then (GuildResult.failed "no-send-permission", m)
  else if sendOk then (GuildResult.sent c.id, m)
  else (GuildResult.failed "send-failed", m)

/-- The per-guild body of `BotGlobalModeration._broadcast_embed`
(`cogs/bot_global_moderation.py` lines 261–378): (1) try the channel id
mapped in `data/channel.json` (a missing key and a 0 value are both falsy
in Python), removing a stale mapping; (2) otherwise look a text channel up
by `CH_NAME` case-insensitively and write the result back into the mapping
when the guild is unmapped; (3) otherwise, given the bot member and the
manage-channels permission, re-check by name (creation race) and then
create the channel, saving its id; every dead end is a recorded failure.
Returns the per-guild result and the updated channel mapping. -/
def resolveGuild (g : Guild) (chmap : List (Nat × Nat)) (create : CreateOutcome)
    (sendOk : Bool) : GuildResult × List (Nat × Nat) :=
  let mappedId : Nat := (chmap.lookup g.gid).getD 0
  let step1 : Option Chan × List (Nat × Nat) :=
    if mappedId ≠ 0 then
      match findTextById g mappedId with
      | some c => (some c, chmap)
      | none => (none, mapErase chmap g.gid)
    else (none, chmap)
  let step2 : Option Chan × List (Nat × Nat) :=
    match step1.1 with
    | some c => (some c, step1.2)
    | none =>
      match findByName g with
      | some c =>
        (some c,
          if (step1.2.lookup g.gid).isNone then mapInsert step1.2 g.gid c.id
          else step1.2)
      | none => (none, step1.2)
  match step2.1 with
  | some c => finalSend g c step2.2 sendOk
  | none =>
    if ¬g.hasMember then (GuildResult.failed "no-member", step2.2)
    else if ¬g.manageChannels then
      (GuildResult.failed "no-manage-channels-permission", step2.2)
    else
      match findByName g with
      | some c => finalSend g c (mapInsert step2.2 g.gid c.id) sendOk
      | none =>
        match create with
        | CreateOutcome.ok newId cs =>
          finalSend g ⟨newId, CH_NAME, true, cs⟩
            (mapInsert step2.2 g.gid newId) sendOk
        | CreateOutcome.forbidden =>
          (GuildResult.failed "create-forbidden", step2.2)
        | CreateOutcome.err =>
          match findByName g with
          | some c => finalSend g c (mapInsert step2.2 g.gid c.id) sendOk
          | none => (GuildResult.failed "create-error", step2.2)

/-- `_broadcast_embed`'s loop over `bot.guilds`: thread the channel
mapping through the per-guild resolution, count successes and collect
`(guild_id, reason)` failures, skipping `skip_guilds`. -/
def broadcastEmbed : List Guild → List (Nat × Nat) → (Nat → CreateOutcome) →
    (Nat → Bool) → List Nat → Nat × List (Nat × String) × List (Nat × Nat)
  | [], m, _, _, _ => (0, [], m)
  | g :: rest, m, create, send, skip =>
    if g.gid ∈ skip then broadcastEmbed rest m create send skip
    else
      let r := resolveGuild g m (create g.gid) (send g.gid)
      let r2 := broadcastEmbed rest r.2 create send skip
      match r.1 with
      | GuildResult.sent _ => (r2.1 + 1, r2.2.1, r2.2.2)
      | GuildResult.failed reason =>
        (r2.1, (g.gid, reason) :: r2.2.1, r2.2.2)

/-- Erasing a key removes it from the mapping. -/
theorem mapErase_lookup (m : List (Nat × Nat)) (k : Nat) :
    (mapErase m k).lookup k = none := by
  induction m with
  | nil => simp [mapErase]
  | cons p t ih =>
    by_cases h : p.1 = k
    · simpa [mapErase, h] using ih
    · have h' : (p.1 != k) = true := by simp [h]
      have hne : ¬k = p.1 := fun hh => h hh.symm
      have h'' : (k == p.1) = false := by
        simp [hne]
      simpa [mapErase, h', List.lookup, h''] using ih

/-- Inserting a key makes it looked up. -/
theorem mapInsert_lookup (m : List (Nat × Nat)) (k v : Nat) :
    (mapInsert m k v).lookup k = some v := by
  simp [mapInsert, List.lookup]

end GlobalMod

namespace GlobalMod

/-- C6. The announcement-channel resolution proceeds in order: (1) a
mapped channel id that denotes an existing text channel is used with the
mapping untouched; (2) a stale mapping is removed from the mapping and the
resolution continues exactly as if the guild were unmapped; (3) for an
unmapped guild, a case-insensitive CH_NAME lookup is used and its result
written back into the mapping; (4) if the name lookup also fails and the
bot member with manage-channels permission is available, the channel is
created and its id saved into the mapping; a guild that yields no sendable
channel is recorded as a failure value rather than raising, and the
broadcast loop accounts every non-skipped guild as either a success or a
recorded failure. Discord snowflake ids are nonzero, which rules out the
falsy mapped id 0. -/
theorem claim_C6_resolution_order
    (g : Guild) (chmap : List (Nat × Nat)) (create : CreateOutcome)
    (sendOk : Bool) (hmap0 : chmap.lookup g.gid ≠ some 0) :
    (∀ m c, chmap.lookup g.gid = some m → findTextById g m = some c →
      resolveGuild g chmap create sendOk = finalSend g c chmap sendOk)
    ∧ (∀ m, chmap.lookup g.gid = some m → findTextById g m = none →
      resolveGuild g chmap create sendOk =
          resolveGuild g (mapErase chmap g.gid) create sendOk
        ∧ (mapErase chmap g.gid).lookup g.gid = none)
    ∧ (∀ c, chmap.lookup g.gid = none → findByName g = some c →
      resolveGuild g chmap create sendOk =
          finalSend g c (mapInsert chmap g.gid c.id) sendOk
        ∧ (mapInsert chmap g.gid c.id).lookup g.gid = some c.id)
    ∧ (∀ newId cs, chmap.lookup g.gid = none → findByName g = none →
      g.hasMember = true → g.manageChannels = true →
      create = CreateOutcome.ok newId cs →
      resolveGuild g chmap create sendOk =
          finalSend g ⟨newId, CH_NAME, true, cs⟩
            (mapInsert chmap g.gid newId) sendOk
        ∧ (mapInsert chmap g.gid newId).lookup g.gid = some newId)
    ∧ ((∃ cid, (resolveGuild g chmap create sendOk).1 = GuildResult.sent cid)
        ∨ ∃ r, (resolveGuild g chmap create sendOk).1 = GuildResult.failed r)
    ∧ (∀ (gs : List Guild) (m : List (Nat × Nat)) (cf : Nat → CreateOutcome)
        (sf : Nat → Bool),
        (broadcastEmbed gs m cf sf []).1
            + (broadcastEmbed gs m cf sf []).2.1.length = gs.length) := by
  refine ⟨?_, ?_, ?_, ?_, ?_, ?_⟩
  · intro m c hm hfind
    have hm0 : m ≠ 0 := fun h => hmap0 (h ▸ hm)
    simp [resolveGuild, hm, hm0, hfind]
  · intro m hm hfind
    have hm0 : m ≠ 0 := fun h => hmap0 (h ▸ hm)
    have herase := mapErase_lookup chmap g.gid
    refine ⟨?_, herase⟩
    simp [resolveGuild, hm, hm0, hfind, herase]
  · intro c hm hfind
    refine ⟨?_, mapInsert_lookup chmap g.gid c.id⟩
    simp [resolveGuild, hm, hfind]
  · intro newId cs hm hfind hmem hperm hcreate
    refine ⟨?_, mapInsert_lookup chmap g.gid newId⟩
    simp [resolveGuild, hm, hfind, hmem, hperm, hcreate]
  · cases h : (resolveGuild g chmap create sendOk).1 with
    | sent cid => exact Or.inl ⟨cid, rfl⟩
    | failed r => exact Or.inr ⟨r, rfl⟩
  · intro gs
    induction gs with
    | nil => intro m cf sf; simp [broadcastEmbed]
    | cons g' rest ih =>
      intro m cf sf
      have hskip : g'.gid ∉ ([] : List Nat) := by simp
      simp only [broadcastEmbed, if_neg hskip]
      cases h : (resolveGuild g' m (cf g'.gid) (sf g'.gid)).1 with
      | sent cid =>
        simp only [h, List.length_cons]
        have := ih (resolveGuild g' m (cf g'.gid) (sf g'.gid)).2 cf sf
        omega
      | failed r =>
        simp only [h, List.length_cons]
        have := ih (resolveGuild g' m (cf g'.gid) (sf g'.gid)).2 cf sf
        omega

/-- Witness for C6 via the mapped-channel case: guild 10 is mapped to
text channel 5, which is sendable, so the broadcast posts there and the
mapping is unchanged. -/
theorem claim_C6_witness :
    resolveGuild ⟨10, [⟨5, "general", true, true⟩], true, true⟩ [(10, 5)]
        CreateOutcome.err true =
      (GuildResult.sent 5, [(10, 5)]) := by
  rw [(claim_C6_resolution_order
      ⟨10, [⟨5, "general", true, true⟩], true, true⟩ [(10, 5)]
      CreateOutcome.err true (by decide)).1 5 ⟨5, "general", true, true⟩
      (by decide) (by decide)]
  rfl

end GlobalMod

namespace GameHub

/-- Python's `zip(*rows)` for integer rows: truncate to the shortest row,
taking one element of each row per output row. Structural helper driven by
the first row. -/
def zipStarAux : List Int → List (List Int) → List (List Int)
  | [], _ => []
  | x :: xs, rest =>
    if rest.any (fun r => r.isEmpty) then []
    else (x :: rest.map (fun r => r.headD 0))
          :: zipStarAux xs (rest.map (fun r => r.tail))

/-- Python's `zip(*rows)`: the empty argument list yields no rows. -/
def zipStar : List (List Int) → List (List Int)
  | [] => []
  | r :: rest => zipStarAux r rest

/-- `GameState._rotate_90_clockwise`:
`[list(row) for row in zip(*matrix[::-1])]`. -/
def rotate90 (m : List (List Int)) : List (List Int) :=
  zipStar m.reverse

/-- Apply the clockwise rotation `k` times
(`for _ in range(k): curr_board = rotate(curr_board)`). -/
def rotN : Nat → List (List Int) → List (List Int)
  | 0, m => m
  | k + 1, m => rotN k (rotate90 m)

/-- The merge loop of `GameState._compress_and_merge_line` over the
zero-stripped line: an equal adjacent pair becomes one doubled tile whose
value is also added to the gained score; otherwise the tile is kept and
the scan advances by one. -/
def mergeLoop : List Int → List Int × Int
  | [] => ([], 0)
  | [a] => ([a], 0)
  | a :: b :: t =>
    if a = b then
      let p := mergeLoop t
      (a * 2 :: p.1, p.2 + a * 2)
    else
      let p := mergeLoop (b :: t)
      (a :: p.1, p.2)

/-- `GameState._compress_and_merge_line`: strip zeros, merge, pad with
zeros back to 4 entries (`res + [0] * (4 - len(res))`), and return the
line together with the gained score. -/
def compressAndMergeLine (line : List Int) : List Int × Int :=
  let stripped := line.filter (fun v => v != 0)
  let p := mergeLoop stripped
  (p.1 ++ List.replicate (4 - p.1.length) 0, p.2)

/-- The four argument values of `GameState.move`. -/
inductive Direction
  | left
  | up
  | right
  | down
deriving DecidableEq

/-- The `rotations` dict `{"left": 0, "up": 1, "right": 2, "down": 3}`. -/
def rotations : Direction → Nat
  | Direction.left => 0
  | Direction.up => 1
  | Direction.right => 2
  | Direction.down => 3

/-- The `reverse_map` dict `{0: 0, 1: 3, 2: 2, 3: 1}` (the inverse
rotation count; other keys never occur). -/
def reverseMap : Nat → Nat
  | 0 => 0
  | 1 => 3
  | 2 => 2
  | 3 => 1
  | _ => 0

/-- The 2048 `GameState` of `cogs/game_hub.py` (the `started_at`
timestamp string plays no role in the game logic and is omitted). -/
structure GameState where
  board : List (List Int)
  score : Int
  moves : Nat
deriving DecidableEq

/-- `GameState.move`: rotate the board so the move becomes a leftward
compression, compress-and-merge every row, return `False` leaving the
state untouched when no row changed, otherwise rotate back, install the
new board, add the total gain to the score and count the move. (The
source iterates `for r in range(4)`; boards are always 4×4.) -/
def moveFn (s : GameState) (dir : Direction) : GameState × Bool :=
  let curr := rotN (rotations dir) s.board
  let processed := curr.map compressAndMergeLine
  let newBoard := processed.map Prod.fst
  let totalGain := (processed.map Prod.snd).sum
  if newBoard = curr then (s, false)
  else
    (⟨rotN (reverseMap (rotations dir)) newBoard, s.score + totalGain,
        s.moves + 1⟩, true)

/-- No two adjacent entries of the line are equal (the horizontal and,
via the transposed board, vertical neighbour checks of `is_game_over`). -/
def noAdjEq : List Int → Bool
  | a :: b :: t => decide (a ≠ b) && noAdjEq (b :: t)
  | _ => true

/-- The line contains no empty (zero) cell. -/
def rowNoZero (r : List Int) : Bool :=
  r.all (fun x => x != 0)

/-- `GameState.is_game_over`: `True` iff the board has no zero cell, no
two horizontally adjacent equal cells, and no two vertically adjacent
equal cells (the `range(4)` double loop with its three early `False`
returns, expressed over rows and columns; boards are always 4×4 and
`zipStar` of a rectangular matrix is its transpose). -/
def isGameOver (b : List (List Int)) : Bool :=
  b.all (fun r => rowNoZero r && noAdjEq r) && (zipStar b).all noAdjEq

/-- Modelled from the claim's words for the refinement part of C9: the
list of newly created merged tiles of a zero-stripped line, scanning left
to right, an equal adjacent pair merging into one doubled (newly created)
tile. -/
def mergedTilesSpec : List Int → List Int
  | a :: b :: t =>
    if a = b then a * 2 :: mergedTilesSpec t else mergedTilesSpec (b :: t)
  | _ => []

/-- Merging conserves the total tile value of a line. -/
theorem mergeLoop_sum : ∀ l : List Int, (mergeLoop l).1.sum = l.sum
  | [] => by simp [mergeLoop]
  | [a] => by simp [mergeLoop]
  | a :: b :: t => by
    by_cases h : a = b
    · have ih := mergeLoop_sum t
      simp [mergeLoop, h, ih]
      ring
    · have ih := mergeLoop_sum (b :: t)
      simp [mergeLoop, h] at ih ⊢
      omega

/-- The merge gain is the sum of the newly created merged tiles. -/
theorem mergeLoop_gain : ∀ l : List Int, (mergeLoop l).2 = (mergedTilesSpec l).sum
  | [] => by simp [mergeLoop, mergedTilesSpec]
  | [a] => by simp [mergeLoop, mergedTilesSpec]
  | a :: b :: t => by
    by_cases h : a = b
    · have ih := mergeLoop_gain t
      simp [mergeLoop, mergedTilesSpec, h, ih]
      ring
    · have ih := mergeLoop_gain (b :: t)
      simp [mergeLoop, mergedTilesSpec, h] at ih ⊢
      exact ih

/-- Merging never lengthens a line. -/
theorem mergeLoop_length : ∀ l : List Int, (mergeLoop l).1.length ≤ l.length
  | [] => by simp [mergeLoop]
  | [a] => by simp [mergeLoop]
  | a :: b :: t => by
    by_cases h : a = b
    · have ih := mergeLoop_length t
      simp only [mergeLoop, if_pos h]
      simp only [List.length_cons]
      omega
    · have ih := mergeLoop_length (b :: t)
      simp only [mergeLoop, if_neg h]
      simp only [List.length_cons]
      simp only [List.length_cons] at ih
      omega

/-- Stripping zeros conserves the sum of a line. -/
theorem filter_nz_sum : ∀ l : List Int, (l.filter (fun v => v != 0)).sum = l.sum := by
  intro l
  induction l with
  | nil => simp
  | cons x t ih =>
    by_cases h : x = 0
    · simp [List.filter, h, ih]
    · have h' : (x != 0) = true := by simp [h]
      simp [List.filter, h', ih]

/-- The compressed line of a 4-entry input has exactly 4 entries. -/
theorem compress_length (line : List Int) (h : line.length = 4) :
    (compressAndMergeLine line).1.length = 4 := by
  have h1 : (line.filter (fun v => v != 0)).length ≤ 4 :=
    h ▸ List.length_filter_le _ line
  have h2 := mergeLoop_length (line.filter (fun v => v != 0))
  simp only [compressAndMergeLine, List.length_append, List.length_replicate]
  omega

/-- The compressed line has the same total tile value as the input. -/
theorem compress_sum (line : List Int) :
    (compressAndMergeLine line).1.sum = line.sum := by
  simp only [compressAndMergeLine, List.sum_append, List.sum_replicate,
    smul_zero, add_zero]
  rw [mergeLoop_sum, filter_nz_sum]

/-- The gain of a compressed line is the sum of its newly created merged
tiles. -/
theorem compress_gain (line : List Int) :
    (compressAndMergeLine line).2 =
      (mergedTilesSpec (line.filter (fun v => v != 0))).sum := by
  simp only [compressAndMergeLine]
  exact mergeLoop_gain _

/-- C9. For every input line of four tile values, the 2048 line
compression returns a line of exactly four entries whose sum equals the
input's sum, together with a gain equal to the sum of the newly created
merged tiles; consequently every successful move increases the score by
exactly the total value of the tiles created by merges in that move. -/
theorem claim_C9_compression_conserves_sum (a b c d : Int) :
    (compressAndMergeLine [a, b, c, d]).1.length = 4
    ∧ (compressAndMergeLine [a, b, c, d]).1.sum = [a, b, c, d].sum
    ∧ (compressAndMergeLine [a, b, c, d]).2 =
        (mergedTilesSpec ([a, b, c, d].filter (fun v => v != 0))).sum
    ∧ ∀ (s : GameState) (dir : Direction), (moveFn s dir).2 = true →
        (moveFn s dir).1.score = s.score +
          ((rotN (rotations dir) s.board).map
            (fun r => (mergedTilesSpec (r.filter (fun v => v != 0))).sum)).sum := by
  refine ⟨compress_length _ (by simp), compress_sum _, compress_gain _, ?_⟩
  intro s dir hmove
  by_cases hc : ((rotN (rotations dir) s.board).map compressAndMergeLine).map
      Prod.fst = rotN (rotations dir) s.board
  · simp only [moveFn, if_pos hc] at hmove
    cases hmove
  · simp only [moveFn, if_neg hc]
    simp only [List.map_map]
    have : ((rotN (rotations dir) s.board).map
        (Prod.snd ∘ compressAndMergeLine)).sum =
        ((rotN (rotations dir) s.board).map
          (fun r => (mergedTilesSpec (r.filter (fun v => v != 0))).sum)).sum := by
      simp only [Function.comp_def, compress_gain]
    rw [this]

/-- Witness for C9: the line `[2, 2, 4, 4]` compresses to `[4, 8, 0, 0]`
with gain 12, and a left move on a board whose first row is that line
raises the score by exactly 12. -/
theorem claim_C9_witness :
    (compressAndMergeLine [2, 2, 4, 4]).1.sum = ([2, 2, 4, 4] : List Int).sum
    ∧ (moveFn ⟨[[2, 2, 4, 4], [0, 0, 0, 0], [0, 0, 0, 0], [0, 0, 0, 0]], 0, 0⟩
          Direction.left).1.score = 0 +
        (([[2, 2, 4, 4], [0, 0, 0, 0], [0, 0, 0, 0],
            ([0, 0, 0, 0] : List Int)]).map
          (fun r => (mergedTilesSpec (r.filter (fun v => v != 0))).sum)).sum := by
  constructor
  · exact (claim_C9_compression_conserves_sum 2 2 4 4).2.1
  · exact (claim_C9_compression_conserves_sum 2 2 4 4).2.2.2
      ⟨[[2, 2, 4, 4], [0, 0, 0, 0], [0, 0, 0, 0], [0, 0, 0, 0]], 0, 0⟩
      Direction.left (by decide)

end GameHub

namespace GameHub

/-- A line of four nonzero pairwise-adjacent-distinct tiles is a fixed
point of the compression, with gain 0. -/
theorem compress_fixed_of (a b c d : Int) (ha : a ≠ 0) (hb : b ≠ 0) (hc : c ≠ 0)
    (hd : d ≠ 0) (hab : a ≠ b) (hbc : b ≠ c) (hcd : c ≠ d) :
    compressAndMergeLine [a, b, c, d] = ([a, b, c, d], 0) := by
  have hf : ([a, b, c, d] : List Int).filter (fun v => v != 0) = [a, b, c, d] := by
    simp [List.filter_cons, ha, hb, hc, hd]
  simp only [compressAndMergeLine, hf]
  simp [mergeLoop, hab, hbc, hcd]

theorem compress_zero_line :
    compressAndMergeLine [0, 0, 0, 0] = ([0, 0, 0, 0], 0) := rfl

theorem mergeLoop_head_nz : ∀ l : List Int, l ≠ [] → (∀ x ∈ l, x ≠ 0) →
    ∃ y, y ≠ 0 ∧ (mergeLoop l).1.head? = some y
  | [], hne, _ => absurd rfl hne
  | [a], _, hall => ⟨a, hall a (by simp), by simp [mergeLoop]⟩
  | a :: b :: t, _, hall => by
    by_cases h : a = b
    · refine ⟨a * 2, ?_, by simp [mergeLoop, h]⟩
      have ha := hall a (by simp)
      intro hz
      omega
    · exact ⟨a, hall a (by simp), by simp [mergeLoop, h]⟩

theorem mergeLoop_len_lt : ∀ l : List Int, noAdjEq l = false →
    (mergeLoop l).1.length < l.length
  | [], hl => by simp [noAdjEq] at hl
  | [a], hl => by simp [noAdjEq] at hl
  | a :: b :: t, hl => by
    by_cases hab : a = b
    · have h1 := mergeLoop_length t
      simp only [mergeLoop, if_pos hab, List.length_cons]
      omega
    · have hadj : noAdjEq (b :: t) = false := by
        simp [noAdjEq, hab] at hl
        exact hl
      have ih := mergeLoop_len_lt (b :: t) hadj
      simp only [mergeLoop, if_neg hab, List.length_cons]
      simp only [List.length_cons] at ih
      omega

theorem filter_len_lt (p : Int → Bool) : ∀ (l : List Int) (x : Int), x ∈ l →
    p x = false → (l.filter p).length < l.length := by
  intro l
  induction l with
  | nil => intro x hx _; simp at hx
  | cons y t ih =>
    intro x hx hpx
    rcases List.mem_cons.mp hx with hh | hh
    · subst hh
      have hle := List.length_filter_le p t
      simp [List.filter_cons, hpx]
      omega
    · by_cases hpy : p y = true
      · have := ih x hh hpx
        simp [List.filter_cons, hpy]
        omega
      · have hpy' : p y = false := by simpa using hpy
        have hle := List.length_filter_le p t
        simp [List.filter_cons, hpy']
        omega

theorem compress_ne_of_short (a b c d : Int)
    (hlen : (mergeLoop (([a, b, c, d] : List Int).filter (fun v => v != 0))).1.length ≤ 3)
    (hd : d ≠ 0) :
    (compressAndMergeLine [a, b, c, d]).1 ≠ [a, b, c, d] := by
  intro heq
  set L := (mergeLoop (([a, b, c, d] : List Int).filter (fun v => v != 0))).1 with hL
  have hfst : (compressAndMergeLine [a, b, c, d]).1 =
      L ++ List.replicate (4 - L.length) 0 := rfl
  have h3 : (L ++ List.replicate (4 - L.length) 0)[3]? = some 0 := by
    rw [List.getElem?_append_right hlen, List.getElem?_replicate]
    have hcond : 3 - L.length < 4 - L.length := by omega
    simp [hcond]
  have h4 : ([a, b, c, d] : List Int)[3]? = some 0 := by
    rw [← heq, hfst]
    exact h3
  simp at h4
  exact hd h4

theorem compress_ne_of_head_zero (a b c d : Int) (ha : a = 0)
    (hnz : b ≠ 0 ∨ c ≠ 0 ∨ d ≠ 0) :
    (compressAndMergeLine [a, b, c, d]).1 ≠ [a, b, c, d] := by
  intro heq
  set f := (([a, b, c, d] : List Int).filter (fun v => v != 0)) with hfdef
  have hfne : f ≠ [] := by
    rcases hnz with hh | hh | hh
    · have hmem : b ∈ f := List.mem_filter.mpr ⟨by simp, by simp [hh]⟩
      exact List.ne_nil_of_mem hmem
    · have hmem : c ∈ f := List.mem_filter.mpr ⟨by simp, by simp [hh]⟩
      exact List.ne_nil_of_mem hmem
    · have hmem : d ∈ f := List.mem_filter.mpr ⟨by simp, by simp [hh]⟩
      exact List.ne_nil_of_mem hmem
  have hall : ∀ x ∈ f, x ≠ 0 := by
    intro x hx
    have := (List.mem_filter.mp hx).2
    simpa using this
  obtain ⟨y, hy, hhead⟩ := mergeLoop_head_nz f hfne hall
  have hLne : (mergeLoop f).1 ≠ [] := by
    intro hnil
    rw [hnil] at hhead
    simp at hhead
  have hfst : (compressAndMergeLine [a, b, c, d]).1 =
      (mergeLoop f).1 ++ List.replicate (4 - (mergeLoop f).1.length) 0 := rfl
  have h0 : (compressAndMergeLine [a, b, c, d]).1.head? = some y := by
    rw [hfst, List.head?_append_of_ne_nil _ hLne]
    exact hhead
  rw [heq] at h0
  simp at h0
  rw [h0] at ha
  exact hy ha

/-- A 4-line and its reverse are both fixed points of the compression
iff the line is all-zero or is zero-free with no adjacent equal pair. -/
theorem row_both_fixed_iff (a b c d : Int) :
    ((compressAndMergeLine [a, b, c, d]).1 = [a, b, c, d] ∧
      (compressAndMergeLine [d, c, b, a]).1 = [d, c, b, a]) ↔
    ((a = 0 ∧ b = 0 ∧ c = 0 ∧ d = 0) ∨
      (a ≠ 0 ∧ b ≠ 0 ∧ c ≠ 0 ∧ d ≠ 0 ∧ a ≠ b ∧ b ≠ c ∧ c ≠ d)) := by
  have hlen4 : ([a, b, c, d] : List Int).length = 4 := rfl
  constructor
  · rintro ⟨h1, h2⟩
    by_cases hd : d = 0
    · by_cases hz : a = 0 ∧ b = 0 ∧ c = 0
      · exact Or.inl ⟨hz.1, hz.2.1, hz.2.2, hd⟩
      · exfalso
        have hnz : c ≠ 0 ∨ b ≠ 0 ∨ a ≠ 0 := by tauto
        exact compress_ne_of_head_zero d c b a hd hnz h2
    · have hshort : ∀ x ∈ ([a, b, c, d] : List Int), x = 0 → False := by
        intro x hx hx0
        have hflt : (([a, b, c, d] : List Int).filter (fun v => v != 0)).length < 4 := by
          have := filter_len_lt (fun v => v != 0) [a, b, c, d] x hx (by simp [hx0])
          omega
        have hml := mergeLoop_length (([a, b, c, d] : List Int).filter (fun v => v != 0))
        exact compress_ne_of_short a b c d (by omega) hd h1
      have ha : a ≠ 0 := fun h0 => hshort a (by simp) h0
      have hb : b ≠ 0 := fun h0 => hshort b (by simp) h0
      have hc : c ≠ 0 := fun h0 => hshort c (by simp) h0
      have hfix : (([a, b, c, d] : List Int).filter (fun v => v != 0)) = [a, b, c, d] := by
        simp [List.filter_cons, ha, hb, hc, hd]
      have hadjcase : ∀ _ : noAdjEq [a, b, c, d] = false, False := by
        intro hadj
        have hlt := mergeLoop_len_lt [a, b, c, d] hadj
        apply compress_ne_of_short a b c d ?_ hd h1
        rw [hfix]
        omega
      have hab : a ≠ b := by
        intro hh
        exact hadjcase (by simp [noAdjEq, hh])
      have hbc : b ≠ c := by
        intro hh
        exact hadjcase (by simp [noAdjEq, hh])
      have hcd : c ≠ d := by
        intro hh
        exact hadjcase (by simp [noAdjEq, hh])
      exact Or.inr ⟨ha, hb, hc, hd, hab, hbc, hcd⟩
  · rintro (⟨ha, hb, hc, hd⟩ | ⟨ha, hb, hc, hd, hab, hbc, hcd⟩)
    · subst ha; subst hb; subst hc; subst hd
      exact ⟨congrArg Prod.fst compress_zero_line,
        congrArg Prod.fst compress_zero_line⟩
    · constructor
      · rw [compress_fixed_of a b c d ha hb hc hd hab hbc hcd]
      · rw [compress_fixed_of d c b a hd hc hb ha (Ne.symm hcd) (Ne.symm hbc)
          (Ne.symm hab)]

end GameHub

namespace GameHub

theorem moveFn_eq_self_iff (s : GameState) (dir : Direction) :
    moveFn s dir = (s, false) ↔
      ((rotN (rotations dir) s.board).map compressAndMergeLine).map Prod.fst =
        rotN (rotations dir) s.board := by
  by_cases hc : ((rotN (rotations dir) s.board).map compressAndMergeLine).map
      Prod.fst = rotN (rotations dir) s.board
  · simp [moveFn, hc]
  · simp [moveFn, hc, Prod.ext_iff]

theorem isGameOver_explicit
    (a b c d e f g h i j k l m n o p : Int) :
    isGameOver [[a,b,c,d],[e,f,g,h],[i,j,k,l],[m,n,o,p]] = true ↔
      ((a ≠ 0 ∧ b ≠ 0 ∧ c ≠ 0 ∧ d ≠ 0) ∧ (e ≠ 0 ∧ f ≠ 0 ∧ g ≠ 0 ∧ h ≠ 0) ∧
        (i ≠ 0 ∧ j ≠ 0 ∧ k ≠ 0 ∧ l ≠ 0) ∧ (m ≠ 0 ∧ n ≠ 0 ∧ o ≠ 0 ∧ p ≠ 0)) ∧
      ((a ≠ b ∧ b ≠ c ∧ c ≠ d) ∧ (e ≠ f ∧ f ≠ g ∧ g ≠ h) ∧
        (i ≠ j ∧ j ≠ k ∧ k ≠ l) ∧ (m ≠ n ∧ n ≠ o ∧ o ≠ p)) ∧
      ((a ≠ e ∧ e ≠ i ∧ i ≠ m) ∧ (b ≠ f ∧ f ≠ j ∧ j ≠ n) ∧
        (c ≠ g ∧ g ≠ k ∧ k ≠ o) ∧ (d ≠ h ∧ h ≠ l ∧ l ≠ p)) := by
  simp [isGameOver, rowNoZero, noAdjEq, zipStar, zipStarAux]
  tauto

/-- C10 counterexample. On the all-zero 4x4 board, `is_game_over` returns
False, yet every one of the four moves returns False and leaves the board,
score and move count unchanged — refuting the claimed equivalence for
arbitrary boards. -/
theorem claim_C10_counterexample :
    isGameOver [[0,0,0,0],[0,0,0,0],[0,0,0,0],[0,0,0,0]] = false
    ∧ moveFn ⟨[[0,0,0,0],[0,0,0,0],[0,0,0,0],[0,0,0,0]], 0, 0⟩ Direction.left =
        (⟨[[0,0,0,0],[0,0,0,0],[0,0,0,0],[0,0,0,0]], 0, 0⟩, false)
    ∧ moveFn ⟨[[0,0,0,0],[0,0,0,0],[0,0,0,0],[0,0,0,0]], 0, 0⟩ Direction.up =
        (⟨[[0,0,0,0],[0,0,0,0],[0,0,0,0],[0,0,0,0]], 0, 0⟩, false)
    ∧ moveFn ⟨[[0,0,0,0],[0,0,0,0],[0,0,0,0],[0,0,0,0]], 0, 0⟩ Direction.right =
        (⟨[[0,0,0,0],[0,0,0,0],[0,0,0,0],[0,0,0,0]], 0, 0⟩, false)
    ∧ moveFn ⟨[[0,0,0,0],[0,0,0,0],[0,0,0,0],[0,0,0,0]], 0, 0⟩ Direction.down =
        (⟨[[0,0,0,0],[0,0,0,0],[0,0,0,0],[0,0,0,0]], 0, 0⟩, false) := by
  refine ⟨rfl, ?_, ?_, ?_, ?_⟩ <;> rfl

/-- C10 as amended. For every 4x4 board with at least one nonzero cell,
`is_game_over` returns True iff `move` returns False in all four
directions while leaving board, score and move count unchanged —
equivalently, iff the board has no zero cell and no two orthogonally
adjacent equal cells (`isGameOver_explicit`). -/
theorem claim_C10_amended_gameover_iff_no_move
    (s : GameState) (a b c d e f g h i j k l m n o p : Int)
    (hboard : s.board = [[a,b,c,d],[e,f,g,h],[i,j,k,l],[m,n,o,p]])
    (hnz : ¬(a = 0 ∧ b = 0 ∧ c = 0 ∧ d = 0 ∧ e = 0 ∧ f = 0 ∧ g = 0 ∧ h = 0 ∧
      i = 0 ∧ j = 0 ∧ k = 0 ∧ l = 0 ∧ m = 0 ∧ n = 0 ∧ o = 0 ∧ p = 0)) :
    isGameOver s.board = true ↔ ∀ dir : Direction, moveFn s dir = (s, false) := by
  have h0 : rotN (rotations Direction.left) s.board =
      [[a,b,c,d],[e,f,g,h],[i,j,k,l],[m,n,o,p]] := by
    rw [hboard]
    rfl
  have h1 : rotN (rotations Direction.up) s.board =
      [[m,i,e,a],[n,j,f,b],[o,k,g,c],[p,l,h,d]] := by
    rw [hboard]
    rfl
  have h2 : rotN (rotations Direction.right) s.board =
      [[p,o,n,m],[l,k,j,i],[h,g,f,e],[d,c,b,a]] := by
    rw [hboard]
    rfl
  have h3 : rotN (rotations Direction.down) s.board =
      [[d,h,l,p],[c,g,k,o],[b,f,j,n],[a,e,i,m]] := by
    rw [hboard]
    rfl
  constructor
  · intro hgo
    rw [hboard, isGameOver_explicit] at hgo
    obtain ⟨⟨⟨ha0,hb0,hc0,hd0⟩,⟨he0,hf0,hg0,hh0⟩,⟨hi0,hj0,hk0,hl0⟩,⟨hm0,hn0,ho0,hp0⟩⟩,
      ⟨⟨hab,hbc,hcd⟩,⟨hef,hfg,hgh⟩,⟨hij,hjk,hkl⟩,⟨hmn,hno,hop⟩⟩,
      ⟨⟨hae,hei,him⟩,⟨hbf,hfj,hjn⟩,⟨hcg,hgk,hko⟩,⟨hdh,hhl,hlp⟩⟩⟩ := hgo
    intro dir
    have e1 := compress_fixed_of a b c d ha0 hb0 hc0 hd0 hab hbc hcd
    have e2 := compress_fixed_of e f g h he0 hf0 hg0 hh0 hef hfg hgh
    have e3 := compress_fixed_of i j k l hi0 hj0 hk0 hl0 hij hjk hkl
    have e4 := compress_fixed_of m n o p hm0 hn0 ho0 hp0 hmn hno hop
    have u1 := compress_fixed_of m i e a hm0 hi0 he0 ha0 (Ne.symm him) (Ne.symm hei) (Ne.symm hae)
    have u2 := compress_fixed_of n j f b hn0 hj0 hf0 hb0 (Ne.symm hjn) (Ne.symm hfj) (Ne.symm hbf)
    have u3 := compress_fixed_of o k g c ho0 hk0 hg0 hc0 (Ne.symm hko) (Ne.symm hgk) (Ne.symm hcg)
    have u4 := compress_fixed_of p l h d hp0 hl0 hh0 hd0 (Ne.symm hlp) (Ne.symm hhl) (Ne.symm hdh)
    have r1 := compress_fixed_of p o n m hp0 ho0 hn0 hm0 (Ne.symm hop) (Ne.symm hno) (Ne.symm hmn)
    have r2 := compress_fixed_of l k j i hl0 hk0 hj0 hi0 (Ne.symm hkl) (Ne.symm hjk) (Ne.symm hij)
    have r3 := compress_fixed_of h g f e hh0 hg0 hf0 he0 (Ne.symm hgh) (Ne.symm hfg) (Ne.symm hef)
    have r4 := compress_fixed_of d c b a hd0 hc0 hb0 ha0 (Ne.symm hcd) (Ne.symm hbc) (Ne.symm hab)
    have d1 := compress_fixed_of d h l p hd0 hh0 hl0 hp0 hdh hhl hlp
    have d2 := compress_fixed_of c g k o hc0 hg0 hk0 ho0 hcg hgk hko
    have d3 := compress_fixed_of b f j n hb0 hf0 hj0 hn0 hbf hfj hjn
    have d4 := compress_fixed_of a e i m ha0 he0 hi0 hm0 hae hei him
    cases dir
    · rw [moveFn_eq_self_iff, h0]
      simp [e1, e2, e3, e4]
    · rw [moveFn_eq_self_iff, h1]
      simp [u1, u2, u3, u4]
    · rw [moveFn_eq_self_iff, h2]
      simp [r1, r2, r3, r4]
    · rw [moveFn_eq_self_iff, h3]
      simp [d1, d2, d3, d4]
  · intro hall
    have hL := (moveFn_eq_self_iff s Direction.left).mp (hall Direction.left)
    rw [h0] at hL
    simp only [List.map_cons, List.map_nil, List.cons.injEq, and_true] at hL
    obtain ⟨hL1, hL2, hL3, hL4⟩ := hL
    have hU := (moveFn_eq_self_iff s Direction.up).mp (hall Direction.up)
    rw [h1] at hU
    simp only [List.map_cons, List.map_nil, List.cons.injEq, and_true] at hU
    obtain ⟨hU1, hU2, hU3, hU4⟩ := hU
    have hR := (moveFn_eq_self_iff s Direction.right).mp (hall Direction.right)
    rw [h2] at hR
    simp only [List.map_cons, List.map_nil, List.cons.injEq, and_true] at hR
    obtain ⟨hR1, hR2, hR3, hR4⟩ := hR
    have hD := (moveFn_eq_self_iff s Direction.down).mp (hall Direction.down)
    rw [h3] at hD
    simp only [List.map_cons, List.map_nil, List.cons.injEq, and_true] at hD
    obtain ⟨hD1, hD2, hD3, hD4⟩ := hD
    have row1 := (row_both_fixed_iff a b c d).mp ⟨hL1, hR4⟩
    have row2 := (row_both_fixed_iff e f g h).mp ⟨hL2, hR3⟩
    have row3 := (row_both_fixed_iff i j k l).mp ⟨hL3, hR2⟩
    have row4 := (row_both_fixed_iff m n o p).mp ⟨hL4, hR1⟩
    have col1 := (row_both_fixed_iff m i e a).mp ⟨hU1, hD4⟩
    have col2 := (row_both_fixed_iff n j f b).mp ⟨hU2, hD3⟩
    have col3 := (row_both_fixed_iff o k g c).mp ⟨hU3, hD2⟩
    have col4 := (row_both_fixed_iff p l h d).mp ⟨hU4, hD1⟩
    rw [hboard, isGameOver_explicit]
    by_cases haz : a = 0
    · exfalso
      have hrow1 : a = 0 ∧ b = 0 ∧ c = 0 ∧ d = 0 := by
        rcases row1 with hz | hnzr
        · exact hz
        · exact absurd haz hnzr.1
      have hcol1 : m = 0 ∧ i = 0 ∧ e = 0 ∧ a = 0 := by
        rcases col1 with hz | hnzr
        · exact hz
        · exact absurd haz hnzr.2.2.2.1
      have hcol2 : n = 0 ∧ j = 0 ∧ f = 0 ∧ b = 0 := by
        rcases col2 with hz | hnzr
        · exact hz
        · exact absurd hrow1.2.1 hnzr.2.2.2.1
      have hcol3 : o = 0 ∧ k = 0 ∧ g = 0 ∧ c = 0 := by
        rcases col3 with hz | hnzr
        · exact hz
        · exact absurd hrow1.2.2.1 hnzr.2.2.2.1
      have hcol4 : p = 0 ∧ l = 0 ∧ h = 0 ∧ d = 0 := by
        rcases col4 with hz | hnzr
        · exact hz
        · exact absurd hrow1.2.2.2 hnzr.2.2.2.1
      exact hnz ⟨haz, hrow1.2.1, hrow1.2.2.1, hrow1.2.2.2,
        hcol1.2.2.1, hcol2.2.2.1, hcol3.2.2.1, hcol4.2.2.1,
        hcol1.2.1, hcol2.2.1, hcol3.2.1, hcol4.2.1,
        hcol1.1, hcol2.1, hcol3.1, hcol4.1⟩
    · have hrow1 := row1.resolve_left (fun hz => haz hz.1)
      have hcol1 := col1.resolve_left (fun hz => haz hz.2.2.2)
      have hrow2 := row2.resolve_left (fun hz => hcol1.2.2.1 hz.1)
      have hcol2 := col2.resolve_left (fun hz => hrow1.2.1 hz.2.2.2)
      have hrow3 := row3.resolve_left (fun hz => hcol1.2.1 hz.1)
      have hrow4 := row4.resolve_left (fun hz => hcol1.1 hz.1)
      have hcol3 := col3.resolve_left (fun hz => hrow1.2.2.1 hz.2.2.2)
      have hcol4 := col4.resolve_left (fun hz => hrow1.2.2.2.1 hz.2.2.2)
      exact ⟨⟨⟨hrow1.1, hrow1.2.1, hrow1.2.2.1, hrow1.2.2.2.1⟩,
        ⟨hrow2.1, hrow2.2.1, hrow2.2.2.1, hrow2.2.2.2.1⟩,
        ⟨hrow3.1, hrow3.2.1, hrow3.2.2.1, hrow3.2.2.2.1⟩,
        ⟨hrow4.1, hrow4.2.1, hrow4.2.2.1, hrow4.2.2.2.1⟩⟩,
        ⟨⟨hrow1.2.2.2.2.1, hrow1.2.2.2.2.2.1, hrow1.2.2.2.2.2.2⟩,
         ⟨hrow2.2.2.2.2.1, hrow2.2.2.2.2.2.1, hrow2.2.2.2.2.2.2⟩,
         ⟨hrow3.2.2.2.2.1, hrow3.2.2.2.2.2.1, hrow3.2.2.2.2.2.2⟩,
         ⟨hrow4.2.2.2.2.1, hrow4.2.2.2.2.2.1, hrow4.2.2.2.2.2.2⟩⟩,
        ⟨⟨Ne.symm hcol1.2.2.2.2.2.2, Ne.symm hcol1.2.2.2.2.2.1,
            Ne.symm hcol1.2.2.2.2.1⟩,
         ⟨Ne.symm hcol2.2.2.2.2.2.2, Ne.symm hcol2.2.2.2.2.2.1,
            Ne.symm hcol2.2.2.2.2.1⟩,
         ⟨Ne.symm hcol3.2.2.2.2.2.2, Ne.symm hcol3.2.2.2.2.2.1,
            Ne.symm hcol3.2.2.2.2.1⟩,
         ⟨Ne.symm hcol4.2.2.2.2.2.2, Ne.symm hcol4.2.2.2.2.2.1,
            Ne.symm hcol4.2.2.2.2.1⟩⟩⟩

/-- Witness for the amended C10: a checkerboard of 2s and 4s is game over
and a left move changes nothing. -/
theorem claim_C10_witness :
    moveFn ⟨[[2,4,2,4],[4,2,4,2],[2,4,2,4],[4,2,4,2]], 7, 3⟩ Direction.left =
      (⟨[[2,4,2,4],[4,2,4,2],[2,4,2,4],[4,2,4,2]], 7, 3⟩, false) :=
  (claim_C10_amended_gameover_iff_no_move ⟨[[2,4,2,4],[4,2,4,2],[2,4,2,4],[4,2,4,2]], 7, 3⟩
      2 4 2 4 4 2 4 2 2 4 2 4 4 2 4 2 rfl (by decide)).mp (by decide)
    Direction.left

end GameHub

namespace Locks

/-- Kinds of mutual-exclusion primitives used in the source tree. -/
inductive LockKind
  | asyncioLock
  | threadingLock
deriving DecidableEq

/-- One mutual-exclusion primitive creation site in the source tree. -/
structure LockSite where
  module : String
  kind : LockKind
deriving DecidableEq

/-- The inventory of mutual-exclusion primitives created in the source:
`NumberRelay.game_state_lock = asyncio.Lock()` guarding the number-relay
game state (`cogs/number.py` line 56), `file_lock = threading.Lock()`
guarding the 2048 score file writes (`cogs/game_hub.py` line 23), and the
per-poll `asyncio.Lock()` instances kept in `ToolsCommands._locks`
guarding poll vote updates (`cogs/tools_commands.py` lines 261 and
417-421). -/
def lockSites : List LockSite :=
  [⟨"cogs/number.py", LockKind.asyncioLock⟩,
   ⟨"cogs/game_hub.py", LockKind.threadingLock⟩,
   ⟨"cogs/tools_commands.py", LockKind.asyncioLock⟩]

/-- C8 counterexample. Two modules other than the number relay create
mutual-exclusion primitives: `cogs/game_hub.py` guards its score file with
a `threading.Lock`, and `cogs/tools_commands.py` guards each poll's vote
state with an `asyncio.Lock` — refuting "the asyncio lock guarding the
number-relay game state is the only mutual-exclusion primitive in the
program". -/
theorem claim_C8_counterexample :
    (lockSites.filter (fun s => s.module != "cogs/number.py")).length = 2
    ∧ LockSite.mk "cogs/game_hub.py" LockKind.threadingLock ∈ lockSites
    ∧ LockSite.mk "cogs/tools_commands.py" LockKind.asyncioLock ∈ lockSites := by
  refine ⟨rfl, by decide, by decide⟩

/-- C8 as amended. The program's mutual-exclusion primitives are exactly
three: the number-relay `asyncio.Lock`, the `threading.Lock` `file_lock`
in `cogs/game_hub.py` guarding the 2048 score file, and the per-poll
`asyncio.Lock` instances in `cogs/tools_commands.py` guarding poll
records. -/
theorem claim_C8_amended_lock_inventory :
    lockSites.map (fun s => s.module) =
      ["cogs/number.py", "cogs/game_hub.py", "cogs/tools_commands.py"]
    ∧ (lockSites.filter
        (fun s => s.kind == LockKind.asyncioLock)).map (fun s => s.module) =
      ["cogs/number.py", "cogs/tools_commands.py"]
    ∧ (lockSites.filter
        (fun s => s.kind == LockKind.threadingLock)).map (fun s => s.module) =
      ["cogs/game_hub.py"] := by
  refine ⟨rfl, rfl, rfl⟩

end Locks
